import Mathlib

/-!
Verification development for `benchmark/torch/model/gpt_tp.py`: a shallow
embedding of the tensor-parallel GPT block (AttentionCore, FeedForward,
SelfAttention, GPTLayer, GPT) over exact real arithmetic, together with
theorems settling the specified properties.

Conventions of the embedding:
* a tensor is a total function from natural-number indices to reals; the
  intended shape is carried by the theorems (entries outside the declared
  shape are junk and never constrained);
* `torch.view` / `reshape` / `permute` become index arithmetic, with the
  element-count side condition of `view` modelled explicitly (`viewOK`);
* machine floats become exact reals; dropout randomness becomes an explicit
  Boolean noise family (a draw with probability p per entry), so that the
  p = 0 case is the hypothesis that every draw is false;
* the external fairscale layers `ColumnParallelLinear` / `RowParallelLinear`
  and the collective `all_reduce_sum` are modelled from their contract in the
  specification (section 4.1): torch Linear semantics y = x Wᵀ + bias, with
  the weight partitioned by rank and the row-parallel bias added once after
  the reduction; their constructors assert divisibility of the partitioned
  dimension by world_size;
* `F.gelu` is an elementwise real function; the development is parametric in
  the activation `act : ℝ → ℝ`, so every theorem about it holds for GELU in
  particular.
-/

open Finset

/-- Tensor of rank 3, indexed [batch, sequence, feature]. -/
abbrev T3 : Type := ℕ → ℕ → ℕ → ℝ

/-- Tensor of rank 4, indexed [batch, head, sequence, head_feature]. -/
abbrev T4 : Type := ℕ → ℕ → ℕ → ℕ → ℝ

/-- Boolean noise family indexed like a rank-3 tensor. -/
abbrev B3 : Type := ℕ → ℕ → ℕ → Bool

/-- Boolean noise family indexed like a rank-4 tensor. -/
abbrev B4 : Type := ℕ → ℕ → ℕ → ℕ → Bool

/-- torch.nn.Softmax(dim=-1) applied to a row of length n, exact real
semantics: entry j is exp(s j) normalized by the sum of exponentials. -/
noncomputable def softmaxRow (n : ℕ) (s : ℕ → ℝ) (j : ℕ) : ℝ :=
  Real.exp (s j) / ∑ u ∈ Finset.range n, Real.exp (s u)

/-- torch.nn.Dropout on a single entry. `noise` is the Bernoulli(p) draw for this entry (true = entry zeroed); surviving entries are rescaled by 1 / (1 - p).
With p = 0 every draw is false with probability one; theorems about the
p = 0 configuration take all-false noise as a hypothesis. -/
noncomputable def dropoutR (p : ℝ) (noise : Bool) (t : ℝ) : ℝ :=
  if noise then 0 else t / (1 - p)

/-- torch.nn.LayerNorm(normalized_shape=n, eps=1e-6) on one feature row:
subtract the mean, divide by the square root of the biased variance plus
epsilon, then apply the elementwise affine parameters. -/
noncomputable def layerNormRow (n : ℕ) (g bt : ℕ → ℝ) (x : ℕ → ℝ) (i : ℕ) : ℝ :=
  ((x i - (∑ u ∈ Finset.range n, x u) / n)
      / Real.sqrt ((∑ u ∈ Finset.range n,
          (x u - (∑ u' ∈ Finset.range n, x u') / n) ^ 2) / n + 1e-6))
    * g i + bt i

/-- LayerNorm applied along the feature axis of a rank-3 tensor. -/
noncomputable def layerNormT (n : ℕ) (g bt : ℕ → ℝ) (x : T3) : T3 :=
  fun b s => layerNormRow n g bt (x b s)

/-- Modelled from the spec (the ShardedLinear contract of the external
fairscale collaborator, section 4.1): ColumnParallelLinear(inD, outD,
gather_output=False). The logical weight W follows the torch Linear
convention W : [outD, inD] with y = x Wᵀ + bias; rank r owns output rows
[r·(outD/w), (r+1)·(outD/w)) and the matching bias slice and returns its
local (partial-width) output without gathering. -/
noncomputable def colParallelLocal (w r inD outD : ℕ) (W : ℕ → ℕ → ℝ)
    (bias : ℕ → ℝ) (x : ℕ → ℝ) (o : ℕ) : ℝ :=
  (∑ i ∈ Finset.range inD, x i * W (r * (outD / w) + o) i)
    + bias (r * (outD / w) + o)

/-- Modelled from the spec (section 4.1): the partial product computed by
rank r of RowParallelLinear(inD, outD, input_is_parallel=True); the input is
already sharded (width inD/w) and rank r multiplies it against its slice of
the weight columns, without bias. -/
noncomputable def rowParallelPart (w r inD : ℕ) (W : ℕ → ℕ → ℝ)
    (x : ℕ → ℝ) (o : ℕ) : ℝ :=
  ∑ i ∈ Finset.range (inD / w), x i * W o (r * (inD / w) + i)

/-- Modelled from the spec (section 6): all_reduce_sum over the model-parallel
group, the elementwise sum of the local tensors of all ranks. -/
noncomputable def allReduceSum (w : ℕ) (t : ℕ → ℕ → ℝ) (o : ℕ) : ℝ :=
  ∑ r ∈ Finset.range w, t r o

/-- RowParallelLinear output: all-reduce of the partial products, with the
bias added exactly once after the reduction. -/
noncomputable def rowParallelOut (w inD : ℕ) (W : ℕ → ℕ → ℝ) (bias : ℕ → ℝ)
    (xs : ℕ → ℕ → ℝ) (o : ℕ) : ℝ :=
  allReduceSum w (fun r => rowParallelPart w r inD W (xs r)) o + bias o

/-- Modelled from the spec (section 4.1): the construction-time divisibility
assertion of ColumnParallelLinear — the output dimension must divide evenly
by world_size. -/
def colParallelInitOK (w inD outD : ℕ) : Prop := outD % w = 0

/-- Modelled from the spec (section 4.1): the construction-time divisibility
assertion of RowParallelLinear — the input dimension must divide evenly by
world_size. -/
def rowParallelInitOK (w inD outD : ℕ) : Prop := inD % w = 0

/-- torch.tril(torch.ones((q_len, k_len))): the entry at (i, j), for
i < q_len and j < k_len, is one exactly when j ≤ i. -/
def trilMask (i j : ℕ) : Bool := decide (j ≤ i)

namespace AttentionCore

/-- the constant written into masked positions (source line 23:
self.where_const = -1e4), a finite large negative real, not -∞. -/
noncomputable def whereConst : ℝ := -10000

/-- the lazily built mask cache of one AttentionCore instance: none before
the first forward call, afterwards the (q_len, k_len) pair the cached mask
tensor was built for (the tensor is determined by the pair: tril of ones of
that shape, viewed as (1, 1, q_len, k_len)). -/
abbrev Cache : Type := Option (ℕ × ℕ)

/-- the cache update and mask selection performed by forward (source lines
30-35): the mask is built from the (q_len, k_len) of the current call only when
the cache is empty; otherwise the cached tensor is reused unchanged,
whatever the current lengths are. Returns the new cache and the
(q_len, k_len) the mask tensor actually used was built for. -/
def step (c : Cache) (qlen klen : ℕ) : Cache × (ℕ × ℕ) :=
  match c with
  | none => (some (qlen, klen), (qlen, klen))
  | some m => (some m, m)

/-- validity of broadcasting a mask of shape (1, 1, m.1, m.2) against a
score tensor of shape (batch, heads, qlen, klen) in torch.where: each
trailing dimension must match or be one. -/
def broadcastOK (m : ℕ × ℕ) (qlen klen : ℕ) : Prop :=
  (m.1 = qlen ∨ m.1 = 1) ∧ (m.2 = klen ∨ m.2 = 1)

/-- the mask entry read at score position (i, j) when a mask built for
lengths m is broadcast: a dimension of size one is stretched (index 0). -/
def maskAt (m : ℕ × ℕ) (i j : ℕ) : Bool :=
  trilMask (if m.1 = 1 then 0 else i) (if m.2 = 1 then 0 else j)

/-- raw attention scores (source line 26): torch.matmul(q, k.transpose(-1, -2)),
a batched matrix product over the last two axes. -/
noncomputable def scores (d : ℕ) (q k : T4) : T4 :=
  fun b h i j => ∑ e ∈ Finset.range d, q b h i e * k b h j e

/-- scaled scores (source line 27): division by sqrt(attention_head_size). -/
noncomputable def scaled (d : ℕ) (q k : T4) : T4 :=
  fun b h i j => scores d q k b h i j / Real.sqrt d

/-- masked scores (source line 36): torch.where(mask, x, where_const) keeps
the scaled score where the mask is true and writes the constant elsewhere. -/
noncomputable def maskedScores (d : ℕ) (mask : ℕ → ℕ → Bool) (q k : T4) : T4 :=
  fun b h i j => if mask i j then scaled d q k b h i j else whereConst

/-- post-softmax attention weights (source line 37): softmax over the key
axis of the masked scores. -/
noncomputable def weights (d klen : ℕ) (mask : ℕ → ℕ → Bool) (q k : T4) : T4 :=
  fun b h i => softmaxRow klen (maskedScores d mask q k b h i)

/-- attention weights after attention dropout (source line 38). -/
noncomputable def dropped (d klen : ℕ) (p : ℝ) (noise : B4)
    (mask : ℕ → ℕ → Bool) (q k : T4) : T4 :=
  fun b h i j => dropoutR p (noise b h i j) (weights d klen mask q k b h i j)

/-- per-head context (source line 40): torch.matmul(x, v). -/
noncomputable def context (d klen : ℕ) (p : ℝ) (noise : B4)
    (mask : ℕ → ℕ → Bool) (q k v : T4) : T4 :=
  fun b h s e => ∑ j ∈ Finset.range klen,
    dropped d klen p noise mask q k b h s j * v b h j e

/-- AttentionCore.forward with an explicit mask (source lines 25-45): after
the context, transpose(1, 2) moves heads next to the feature axis and the
reshape merges the last two axes, so output feature u reads head u / d,
head-feature u % d. -/
noncomputable def forwardWith (d klen : ℕ) (p : ℝ) (noise : B4)
    (mask : ℕ → ℕ → Bool) (q k v : T4) : T3 :=
  fun b s u => context d klen p noise mask q k v b (u / d) s (u % d)

/-- the maximum of a masked-score row over the unmasked key positions
j ≤ i (the set is nonempty whenever klen is positive, since 0 ≤ i). -/
noncomputable def rowMaxUnmasked (klen i : ℕ) (s : ℕ → ℝ) : ℝ :=
  if h : ((Finset.range klen).filter (fun u => u ≤ i)).Nonempty
  then ((Finset.range klen).filter (fun u => u ≤ i)).sup' h s
  else 0

end AttentionCore

namespace SelfAttention

/-- the parameters of one SelfAttention module: the logical (unsharded)
weights and biases of the three column-parallel projections and of the
row-parallel output projection, and the two dropout probabilities. -/
structure Params where
  Wq : ℕ → ℕ → ℝ
  bq : ℕ → ℝ
  Wk : ℕ → ℕ → ℝ
  bk : ℕ → ℝ
  Wv : ℕ → ℕ → ℝ
  bv : ℕ → ℝ
  Wd : ℕ → ℕ → ℝ
  bd : ℕ → ℝ
  pAttn : ℝ
  pOut : ℝ

/-- attention_head_size = dim // num_heads (source line 80; Python floor
division on nonnegative integers is Nat division). -/
def headSize (dim H : ℕ) : ℕ := dim / H

/-- q.shape[-1] after ColumnParallelLinear(dim, dim, gather_output=False):
the local width dim // world_size (source line 97). -/
def localWidth (w dim : ℕ) : ℕ := dim / w

/-- num_attention_heads = all_head_size // attention_head_size
(source line 98), computed from the local width and the global head size. -/
def numLocalHeads (w dim H : ℕ) : ℕ := localWidth w dim / headSize dim H

/-- the element-count side condition of the three .view calls at source
lines 102-104: reshaping the last axis of width localWidth into
(numLocalHeads, headSize) succeeds exactly when the counts match. -/
def viewOK (w dim H : ℕ) : Prop :=
  localWidth w dim = numLocalHeads w dim H * headSize dim H

/-- q.view(new_qkv_shape) (source lines 100-104): split the last axis into
(heads, head_size); entry (b, s, h, e) reads flat feature h · d + e. -/
def viewHeads (d : ℕ) (t : T3) : T4 := fun b s h e => t b s (h * d + e)

/-- q.permute((0, 2, 1, 3)) (source lines 106-108). -/
def permuteHeads (t : T4) : T4 := fun b h s e => t b s h e

/-- the local output of one of the q/k/v projections at rank r, applied
along the feature axis of the input hidden state (source lines 93-95). -/
noncomputable def qkvLocal (w r dim : ℕ) (W : ℕ → ℕ → ℝ) (bias : ℕ → ℝ)
    (x : T3) : T3 :=
  fun b s => colParallelLocal w r dim dim W bias (x b s)

/-- the tensor handed to AttentionCore for one projection: local projection,
head split with the global head size, then permute (source lines 93-108). -/
noncomputable def coreIn (w r dim H : ℕ) (W : ℕ → ℕ → ℝ) (bias : ℕ → ℝ)
    (x : T3) : T4 :=
  permuteHeads (viewHeads (headSize dim H) (qkvLocal w r dim W bias x))

/-- the AttentionCore output at rank r (source line 110), with the mask
tensor built for lengths m; q_len = k_len = seq, the sequence length of the
input hidden state. -/
noncomputable def coreOut (w r dim H seq : ℕ) (P : Params) (noiseA : B4)
    (m : ℕ × ℕ) (x : T3) : T3 :=
  AttentionCore.forwardWith (headSize dim H) seq P.pAttn noiseA
    (AttentionCore.maskAt m)
    (coreIn w r dim H P.Wq P.bq x)
    (coreIn w r dim H P.Wk P.bk x)
    (coreIn w r dim H P.Wv P.bv x)

/-- SelfAttention.forward with the mask tensor built for lengths m: the
row-parallel output projection consumes the still-sharded context of every rank,
all-reduces, adds the bias once, and output dropout follows
(source lines 91-115). -/
noncomputable def forwardWith (w dim H seq : ℕ) (P : Params)
    (noiseA : ℕ → B4) (noiseO : B3) (m : ℕ × ℕ) (x : T3) : T3 :=
  fun b s o => dropoutR P.pOut (noiseO b s o)
    (rowParallelOut w dim P.Wd P.bd
      (fun r => coreOut w r dim H seq P (noiseA r) m x b s) o)

/-- SelfAttention.forward on a fresh module (first call: the mask is built
for the actual lengths (seq, seq)). -/
noncomputable def forward (w dim H seq : ℕ) (P : Params)
    (noiseA : ℕ → B4) (noiseO : B3) (x : T3) : T3 :=
  forwardWith w dim H seq P noiseA noiseO (seq, seq) x

/-- the construction-time checks of SelfAttention.__init__ (source lines
73-89): three ColumnParallelLinear(dim, dim) and one
RowParallelLinear(dim, dim); nothing checks num_heads. -/
def initOK (w dim H : ℕ) : Prop :=
  colParallelInitOK w dim dim ∧ colParallelInitOK w dim dim ∧
    colParallelInitOK w dim dim ∧ rowParallelInitOK w dim dim

end SelfAttention

namespace FeedForward

/-- the parameters of one FeedForward module: the logical weights and biases
of dense_h_to_4h and dense_4h_to_h. -/
structure Params where
  W1 : ℕ → ℕ → ℝ
  b1 : ℕ → ℝ
  W2 : ℕ → ℕ → ℝ
  b2 : ℕ → ℝ

/-- ffn_hidden_size = hidden_size * ratio (source lines 50-53; the expansion
factor defaults to 4 in the source). -/
def ffnHidden (dim mult : ℕ) : ℕ := dim * mult

/-- the local slice of the expanded intermediate held at rank r after the
elementwise activation (source lines 65-66): dense_h_to_4h is
ColumnParallelLinear(dim, dim·mult, gather_output=False) and the activation
(F.gelu in the source) is applied directly to the local slice. -/
noncomputable def interLocal (act : ℝ → ℝ) (w r dim mult : ℕ) (P : Params)
    (x : T3) : T3 :=
  fun b s u => act (colParallelLocal w r dim (ffnHidden dim mult) P.W1 P.b1 (x b s) u)

/-- FeedForward.forward (source lines 64-68): dense_4h_to_h is
RowParallelLinear(dim·mult, dim, input_is_parallel=True), consuming the
still-sharded intermediate and all-reducing the partial products. -/
noncomputable def forward (act : ℝ → ℝ) (w dim mult : ℕ) (P : Params)
    (x : T3) : T3 :=
  fun b s o => rowParallelOut w (ffnHidden dim mult) P.W2 P.b2
    (fun r => interLocal act w r dim mult P x b s) o

/-- the construction-time checks of FeedForward.__init__ (source lines
50-60): ColumnParallelLinear(dim, dim·mult) and
RowParallelLinear(dim·mult, dim). -/
def initOK (w dim mult : ℕ) : Prop :=
  colParallelInitOK w dim (ffnHidden dim mult) ∧
    rowParallelInitOK w (ffnHidden dim mult) dim

end FeedForward

namespace GPTLayer

/-- the parameters of one GPTLayer: the two LayerNorm affine pairs and the
attention / feed-forward parameters. -/
structure Params where
  g1 : ℕ → ℝ
  t1 : ℕ → ℝ
  attn : SelfAttention.Params
  g2 : ℕ → ℝ
  t2 : ℕ → ℝ
  ff : FeedForward.Params

/-- the dropout noise drawn during one forward call of one layer: the
attention-weight dropout draws of each rank and the output dropout draws. -/
structure Noise where
  nA : ℕ → B4
  nO : B3

/-- a noise family in which no entry is dropped, the almost-sure draw when
the dropout probabilities are zero. -/
def Noise.quiet (N : Noise) : Prop :=
  (∀ r b h i j, N.nA r b h i j = false) ∧ (∀ b s o, N.nO b s o = false)

/-- the numeric part of GPTLayer.forward (source lines 136-139), given the
lengths mm the attention mask tensor in use was built for:
x1 = x + attn(norm1(x)); then x1 + mlp(norm2(x1)). -/
noncomputable def forwardMask (act : ℝ → ℝ) (w dim H mult seq : ℕ) (P : Params)
    (N : Noise) (mm : ℕ × ℕ) (x : T3) : T3 :=
  let x1 : T3 := fun b s o => x b s o
    + SelfAttention.forwardWith w dim H seq P.attn N.nA N.nO mm
        (layerNormT dim P.g1 P.t1 x) b s o
  fun b s o => x1 b s o
    + FeedForward.forward act w dim mult P.ff (layerNormT dim P.g2 P.t2 x1) b s o

/-- GPTLayer.forward (source lines 136-139) with explicit mask-cache state:
the attention sublayer updates the mask cache of its AttentionCore and the
numeric result uses whatever mask tensor that cache supplied. -/
noncomputable def forwardSt (act : ℝ → ℝ) (w dim H mult seq : ℕ) (P : Params)
    (N : Noise) (c : AttentionCore.Cache) (x : T3) : AttentionCore.Cache × T3 :=
  ((AttentionCore.step c seq seq).1,
    forwardMask act w dim H mult seq P N (AttentionCore.step c seq seq).2 x)

/-- GPTLayer.forward on a fresh module (empty mask cache). -/
noncomputable def forward (act : ℝ → ℝ) (w dim H mult seq : ℕ) (P : Params)
    (N : Noise) (x : T3) : T3 :=
  (forwardSt act w dim H mult seq P N none x).2

/-- the construction-time checks of GPTLayer.__init__ (source lines
120-134). -/
def initOK (w dim H mult : ℕ) : Prop :=
  SelfAttention.initOK w dim H ∧ FeedForward.initOK w dim mult

end GPTLayer

namespace GPT

/-- GPT.forward (source lines 164-167) with explicit per-layer mask-cache
state: apply each block in order, threading the hidden state through and
collecting the updated cache of each layer. -/
noncomputable def forwardSt (act : ℝ → ℝ) (w dim H mult seq : ℕ) :
    List (GPTLayer.Params × GPTLayer.Noise) → List AttentionCore.Cache → T3 →
      List AttentionCore.Cache × T3
  | [], _, x => ([], x)
  | PN :: rest, cs, x =>
    let r1 := GPTLayer.forwardSt act w dim H mult seq PN.1 PN.2 cs.headI x
    let r2 := forwardSt act w dim H mult seq rest cs.tail r1.2
    (r1.1 :: r2.1, r2.2)

/-- GPT.forward on a fresh model: every layer starts with an empty mask
cache. -/
noncomputable def forward (act : ℝ → ℝ) (w dim H mult seq : ℕ)
    (PNs : List (GPTLayer.Params × GPTLayer.Noise)) (x : T3) : T3 :=
  (forwardSt act w dim H mult seq PNs (List.replicate PNs.length none) x).2

/-- the construction-time checks of GPT.__init__ (source lines 144-162):
depth independently parameterized but structurally identical layers. -/
def initOK (w depth dim H mult : ℕ) : Prop :=
  ∀ i, i < depth → GPTLayer.initOK w dim H mult

end GPT

/-- all-zero SelfAttention parameters with zero dropout probabilities, used
by witnesses. -/
noncomputable def zeroAttnParams : SelfAttention.Params :=
  ⟨fun _ _ => 0, fun _ => 0, fun _ _ => 0, fun _ => 0, fun _ _ => 0, fun _ => 0,
    fun _ _ => 0, fun _ => 0, 0, 0⟩

/-- all-zero FeedForward parameters, used by witnesses. -/
noncomputable def zeroFFParams : FeedForward.Params :=
  ⟨fun _ _ => 0, fun _ => 0, fun _ _ => 0, fun _ => 0⟩

/-- all-zero GPTLayer parameters with zero dropout probabilities, used by
witnesses. -/
noncomputable def zeroLayerParams : GPTLayer.Params :=
  ⟨fun _ => 0, fun _ => 0, zeroAttnParams, fun _ => 0, fun _ => 0, zeroFFParams⟩

/-- the all-false dropout noise bundle of one layer, used by witnesses. -/
def quietLayerNoise : GPTLayer.Noise :=
  ⟨fun _ _ _ _ _ => false, fun _ _ _ => false⟩

/-- Splitting a sum over `range (m * n)` into blocks of length `n`. -/
theorem sum_range_mul (m n : ℕ) (g : ℕ → ℝ) :
    ∑ i ∈ Finset.range (m * n), g i
      = ∑ a ∈ Finset.range m, ∑ b ∈ Finset.range n, g (a * n + b) := by
  induction m with
  | zero => simp
  | succ m ih => rw [Nat.succ_mul, Finset.sum_range_add, ih, Finset.sum_range_succ]

/-- within the declared shape, the broadcast mask built for exactly
(qlen, klen) agrees with the lower-triangular predicate. -/
theorem AttentionCore.maskAt_in_range (qlen klen i j : ℕ) (hi : i < qlen) (hj : j < klen) :
    maskAt (qlen, klen) i j = trilMask i j := by
  unfold maskAt
  rcases eq_or_ne qlen 1 with h1 | h1 <;>
    rcases eq_or_ne klen 1 with h2 | h2 <;>
      simp_all [Nat.lt_one_iff]

theorem quietLayerNoise_quiet : quietLayerNoise.quiet :=
  ⟨fun _ _ _ _ _ => rfl, fun _ _ _ => rfl⟩



theorem softmaxRow_pos (n : ℕ) (hn : 0 < n) (s : ℕ → ℝ) (j : ℕ) :
    0 < softmaxRow n s j :=
  div_pos (Real.exp_pos (s j))
    (Finset.sum_pos (fun u _ => Real.exp_pos (s u))
      (Finset.nonempty_range_iff.mpr hn.ne'))

theorem softmaxRow_sum_one (n : ℕ) (hn : 0 < n) (s : ℕ → ℝ) :
    ∑ u ∈ Finset.range n, softmaxRow n s u = 1 := by
  unfold softmaxRow
  rw [← Finset.sum_div, div_self]
  exact (Finset.sum_pos (fun u _ => Real.exp_pos (s u))
    (Finset.nonempty_range_iff.mpr hn.ne')).ne'

theorem softmaxRow_le (n : ℕ) (s : ℕ → ℝ) (j u0 : ℕ) (hu0 : u0 < n) :
    softmaxRow n s j ≤ Real.exp (s j - s u0) := by
  have hZ : Real.exp (s u0) ≤ ∑ u ∈ Finset.range n, Real.exp (s u) :=
    Finset.single_le_sum (fun u _ => (Real.exp_pos (s u)).le)
      (Finset.mem_range.mpr hu0)
  calc softmaxRow n s j
      ≤ Real.exp (s j) / Real.exp (s u0) :=
        div_le_div_of_nonneg_left (Real.exp_pos (s j)).le (Real.exp_pos (s u0)) hZ
    _ = Real.exp (s j - s u0) := (Real.exp_sub (s j) (s u0)).symm

theorem rowMaxUnmasked_attained (klen i : ℕ) (hk : 0 < klen) (s : ℕ → ℝ) :
    ∃ u0, u0 < klen ∧ u0 ≤ i ∧ s u0 = AttentionCore.rowMaxUnmasked klen i s := by
  have hne : ((Finset.range klen).filter (fun u => u ≤ i)).Nonempty :=
    ⟨0, by simp [hk]⟩
  obtain ⟨u0, hu0, hval⟩ := Finset.exists_mem_eq_sup' hne s
  refine ⟨u0, Finset.mem_range.mp (Finset.mem_filter.mp hu0).1,
    (Finset.mem_filter.mp hu0).2, ?_⟩
  rw [AttentionCore.rowMaxUnmasked, dif_pos hne, hval]

open AttentionCore in
/-- C3: in AttentionCore.forward, scaled scores at positions where the causal
mask is false (key position j strictly greater than query position i) are
replaced, before the softmax, with the finite constant where_const = -1e4 and
not with negative infinity; consequently for every input the post-softmax
weight at such a position is strictly positive yet bounded by the residual
floor exp(where_const - M) implied by the constant, where M is the row
maximum of the (unmasked) scores over positions u ≤ i, and the weights over
positions u ≤ i sum to 1 up to at most k_len times that residual. -/
theorem masked_softmax_residual (d qlen klen : ℕ) (q k : T4) (b h i j : ℕ)
    (hi : i < qlen) (hj : j < klen) (hij : i < j) :
    maskedScores d (maskAt (qlen, klen)) q k b h i j = whereConst ∧
    whereConst = -10000 ∧
    0 < weights d klen (maskAt (qlen, klen)) q k b h i j ∧
    weights d klen (maskAt (qlen, klen)) q k b h i j
      ≤ Real.exp (whereConst
          - rowMaxUnmasked klen i (maskedScores d (maskAt (qlen, klen)) q k b h i)) ∧
    1 - (klen : ℝ) * Real.exp (whereConst
          - rowMaxUnmasked klen i (maskedScores d (maskAt (qlen, klen)) q k b h i))
      ≤ ∑ u ∈ (Finset.range klen).filter (fun u => u ≤ i),
          weights d klen (maskAt (qlen, klen)) q k b h i u ∧
    ∑ u ∈ (Finset.range klen).filter (fun u => u ≤ i),
        weights d klen (maskAt (qlen, klen)) q k b h i u ≤ 1 := by
  have hk0 : 0 < klen := Nat.lt_of_le_of_lt (Nat.zero_le j) hj
  have hwnn : ∀ u, 0 ≤ weights d klen (maskAt (qlen, klen)) q k b h i u :=
    fun u => (softmaxRow_pos klen hk0 _ u).le
  obtain ⟨u0, hu0k, hu0i, hu0val⟩ := rowMaxUnmasked_attained klen i hk0
    (maskedScores d (maskAt (qlen, klen)) q k b h i)
  have hmaskfalse : ∀ u, i < u → u < klen →
      maskedScores d (maskAt (qlen, klen)) q k b h i u = whereConst := by
    intro u hu huk
    have : maskAt (qlen, klen) i u = false := by
      rw [maskAt_in_range qlen klen i u hi huk]
      simp [trilMask, Nat.not_le.mpr hu]
    simp [maskedScores, this]
  have hmsj : maskedScores d (maskAt (qlen, klen)) q k b h i j = whereConst :=
    hmaskfalse j hij hj
  have hbound : ∀ u, i < u → u < klen →
      weights d klen (maskAt (qlen, klen)) q k b h i u
        ≤ Real.exp (whereConst
            - rowMaxUnmasked klen i (maskedScores d (maskAt (qlen, klen)) q k b h i)) := by
    intro u hu huk
    have := softmaxRow_le klen (maskedScores d (maskAt (qlen, klen)) q k b h i) u u0 hu0k
    rwa [hmaskfalse u hu huk, hu0val] at this
  have hsum_all : ∑ u ∈ Finset.range klen,
      weights d klen (maskAt (qlen, klen)) q k b h i u = 1 :=
    softmaxRow_sum_one klen hk0 _
  have hsplit := Finset.sum_filter_add_sum_filter_not (Finset.range klen)
    (fun u => u ≤ i) (weights d klen (maskAt (qlen, klen)) q k b h i)
  have hmaskedsum : ∑ u ∈ (Finset.range klen).filter (fun u => ¬ u ≤ i),
      weights d klen (maskAt (qlen, klen)) q k b h i u
        ≤ (klen : ℝ) * Real.exp (whereConst
            - rowMaxUnmasked klen i (maskedScores d (maskAt (qlen, klen)) q k b h i)) := by
    calc ∑ u ∈ (Finset.range klen).filter (fun u => ¬ u ≤ i),
        weights d klen (maskAt (qlen, klen)) q k b h i u
        ≤ ∑ _u ∈ (Finset.range klen).filter (fun u => ¬ u ≤ i),
            Real.exp (whereConst
              - rowMaxUnmasked klen i (maskedScores d (maskAt (qlen, klen)) q k b h i)) := by
          refine Finset.sum_le_sum ?_
          intro u hu
          have hmem := Finset.mem_filter.mp hu
          exact hbound u (Nat.lt_of_not_le hmem.2) (Finset.mem_range.mp hmem.1)
      _ ≤ (klen : ℝ) * Real.exp (whereConst
            - rowMaxUnmasked klen i (maskedScores d (maskAt (qlen, klen)) q k b h i)) := by
          rw [Finset.sum_const, nsmul_eq_mul]
          have hcard : (((Finset.range klen).filter (fun u => ¬ u ≤ i)).card : ℝ)
              ≤ (klen : ℝ) := by
            exact_mod_cast (Finset.card_filter_le (Finset.range klen) _).trans_eq
              (Finset.card_range klen)
          exact mul_le_mul_of_nonneg_right hcard (Real.exp_pos _).le
  refine ⟨hmsj, rfl, softmaxRow_pos klen hk0 _ j, hbound j hij hj, ?_, ?_⟩
  · have : ∑ u ∈ (Finset.range klen).filter (fun u => u ≤ i),
        weights d klen (maskAt (qlen, klen)) q k b h i u
          = 1 - ∑ u ∈ (Finset.range klen).filter (fun u => ¬ u ≤ i),
              weights d klen (maskAt (qlen, klen)) q k b h i u := by
      rw [← hsum_all, ← hsplit]; ring
    rw [this]
    linarith [hmaskedsum]
  · rw [← hsum_all]
    exact Finset.sum_le_sum_of_subset_of_nonneg
      (Finset.filter_subset _ _) (fun u _ _ => hwnn u)

open AttentionCore in
/-- Witness for masked_softmax_residual: d = 1, q_len = k_len = 2, row i = 0,
masked column j = 1, zero query/key tensors. -/
theorem masked_softmax_residual_witness :
    ((0 : ℕ) < 2 ∧ (1 : ℕ) < 2 ∧ (0 : ℕ) < 1) ∧
    (maskedScores 1 (maskAt (2, 2)) (fun _ _ _ _ => 0) (fun _ _ _ _ => 0) 0 0 0 1
        = whereConst ∧
      whereConst = -10000 ∧
      0 < weights 1 2 (maskAt (2, 2)) (fun _ _ _ _ => 0) (fun _ _ _ _ => 0) 0 0 0 1 ∧
      weights 1 2 (maskAt (2, 2)) (fun _ _ _ _ => 0) (fun _ _ _ _ => 0) 0 0 0 1
        ≤ Real.exp (whereConst - rowMaxUnmasked 2 0
            (maskedScores 1 (maskAt (2, 2)) (fun _ _ _ _ => 0) (fun _ _ _ _ => 0) 0 0 0)) ∧
      1 - ((2 : ℕ) : ℝ) * Real.exp (whereConst - rowMaxUnmasked 2 0
            (maskedScores 1 (maskAt (2, 2)) (fun _ _ _ _ => 0) (fun _ _ _ _ => 0) 0 0 0))
        ≤ ∑ u ∈ (Finset.range 2).filter (fun u => u ≤ 0),
            weights 1 2 (maskAt (2, 2)) (fun _ _ _ _ => 0) (fun _ _ _ _ => 0) 0 0 0 u ∧
      ∑ u ∈ (Finset.range 2).filter (fun u => u ≤ 0),
          weights 1 2 (maskAt (2, 2)) (fun _ _ _ _ => 0) (fun _ _ _ _ => 0) 0 0 0 u ≤ 1) :=
  ⟨⟨by decide, by decide, by decide⟩,
    masked_softmax_residual 1 2 2 (fun _ _ _ _ => 0) (fun _ _ _ _ => 0) 0 0 0 1
      (by decide) (by decide) (by decide)⟩

/-- C2 (code bug): on one AttentionCore instance the cached causal mask is
reused unconditionally: after a first forward call at lengths (2, 2) the
cache holds (2, 2), and a second forward call at lengths (3, 3) reuses the
stale (2, 2) mask — not a mask built for the new lengths — and that stale
mask is not even broadcastable against the new (3, 3) score tensor, so
torch.where fails instead of masking consistently with the new lengths. -/
theorem mask_cache_stale_reuse :
    (AttentionCore.step none 2 2).1 = some (2, 2) ∧
    (AttentionCore.step (AttentionCore.step none 2 2).1 3 3).1 = some (2, 2) ∧
    (AttentionCore.step (AttentionCore.step none 2 2).1 3 3).2 = (2, 2) ∧
    (AttentionCore.step (AttentionCore.step none 2 2).1 3 3).2 ≠ (3, 3) ∧
    ¬ AttentionCore.broadcastOK
        (AttentionCore.step (AttentionCore.step none 2 2).1 3 3).2 3 3 := by
  unfold AttentionCore.step AttentionCore.broadcastOK
  decide

/-- C4 counterexample: with world_size = 1, depth = 1, dim = 10,
num_heads = 3 (dim not divisible by num_heads) every construction-time check
passes, so the stack is constructed without any error; the inconsistency
only surfaces later because the head-split view in forward is ill-formed
(local width 10 is not numLocalHeads · headSize = 3 · 3). -/
theorem construction_no_num_heads_check :
    ¬ (10 % 3 = 0) ∧ GPT.initOK 1 1 10 3 4 ∧ ¬ SelfAttention.viewOK 1 10 3 := by
  refine ⟨by decide, ?_, ?_⟩
  · unfold GPT.initOK GPTLayer.initOK SelfAttention.initOK FeedForward.initOK
      colParallelInitOK rowParallelInitOK FeedForward.ffnHidden
    decide
  · unfold SelfAttention.viewOK SelfAttention.localWidth
      SelfAttention.numLocalHeads SelfAttention.headSize
    decide

/-- C4 amended: construction of the stack (or any sublayer) fails at
construction time exactly when a sharded dimension (dim for the q/k/v and
output projections, dim · mlp_ratio for the feed-forward projections) is not
divisible by world_size — the divisibility assertions of the column- and
row-parallel linear constructors, raised before any forward computation;
divisibility of dim by num_heads is not checked at construction time. -/
theorem construction_divisibility_check (w depth dim H mult : ℕ) :
    GPT.initOK w depth dim H mult
      ↔ (0 < depth → (dim % w = 0 ∧ (dim * mult) % w = 0)) := by
  unfold GPT.initOK GPTLayer.initOK SelfAttention.initOK FeedForward.initOK
    colParallelInitOK rowParallelInitOK FeedForward.ffnHidden
  constructor
  · intro hall hd
    obtain ⟨hsa, hff⟩ := hall 0 hd
    exact ⟨hsa.1, hff.1⟩
  · intro himp i hi
    obtain ⟨h1, h2⟩ := himp (Nat.lt_of_le_of_lt (Nat.zero_le i) hi)
    exact ⟨⟨h1, h1, h1, h1⟩, h2, h2⟩

/-- C9: a GPT constructed with depth = 0 has an empty block list and forward
returns its input unchanged — the identity transform, same values at every
index and hence the same shape. -/
theorem depth_zero_identity (act : ℝ → ℝ) (w dim H mult seq : ℕ) (x : T3) :
    GPT.forward act w dim H mult seq [] x = x := rfl

/-- C5: GPTLayer.forward computes exactly the pre-norm residual composition
x1 = x + SelfAttention(Normalize1(x)) followed by
x2 = x1 + FeedForward(Normalize2(x1)), and returns x2 (on a fresh layer the
attention mask is the one built for the sequence length of this call). -/
theorem gpt_layer_residual_composition (act : ℝ → ℝ) (w dim H mult seq : ℕ)
    (P : GPTLayer.Params) (N : GPTLayer.Noise) (x : T3) :
    GPTLayer.forward act w dim H mult seq P N x
      = (fun x1 : T3 => fun b s o => x1 b s o
          + FeedForward.forward act w dim mult P.ff
              (layerNormT dim P.g2 P.t2 x1) b s o)
        (fun b s o => x b s o
          + SelfAttention.forward w dim H seq P.attn N.nA N.nO
              (layerNormT dim P.g1 P.t1 x) b s o) := rfl

open AttentionCore in
/-- C6: AttentionCore.forward computes raw scores as query times
key-transposed over the last two axes, scales them by
1 / sqrt(attention_head_size), replaces causally masked entries by the
masking constant, softmaxes over the key axis, applies attention dropout,
multiplies by value, and returns the context with the head and head-size
axes merged into one feature axis: for h < H and e < d the output feature
h · d + e is the weighted combination of head h of v. -/
theorem attention_core_semantics (d H qlen klen : ℕ) (p : ℝ) (noise : B4)
    (q k v : T4) (b s h e : ℕ) (hh : h < H) (he : e < d) :
    (forwardWith d klen p noise (maskAt (qlen, klen)) q k v b s (h * d + e)
        = ∑ j ∈ Finset.range klen,
            dropoutR p (noise b h s j)
              (softmaxRow klen (maskedScores d (maskAt (qlen, klen)) q k b h s) j)
            * v b h j e) ∧
    (∀ i j', maskedScores d (maskAt (qlen, klen)) q k b h i j'
        = if maskAt (qlen, klen) i j'
          then (∑ e' ∈ Finset.range d, q b h i e' * k b h j' e') / Real.sqrt d
          else whereConst) := by
  have hd0 : 0 < d := Nat.lt_of_le_of_lt (Nat.zero_le e) he
  have hdiv : (h * d + e) / d = h := by
    rw [mul_comm, Nat.mul_add_div hd0, Nat.div_eq_of_lt he, Nat.add_zero]
  have hmod : (h * d + e) % d = e := by
    rw [mul_comm, Nat.mul_add_mod, Nat.mod_eq_of_lt he]
  constructor
  · unfold forwardWith context dropped weights
    rw [hdiv, hmod]
  · intro i j'
    rfl

open AttentionCore in
/-- Witness for attention_core_semantics: d = 2, H = 1, q_len = k_len = 2,
head 0, head-feature 1, zero tensors, p = 0, quiet noise. -/
theorem attention_core_semantics_witness :
    ((0 : ℕ) < 1 ∧ (1 : ℕ) < 2) ∧
    ((forwardWith 2 2 0 (fun _ _ _ _ => false) (maskAt (2, 2))
        (fun _ _ _ _ => 0) (fun _ _ _ _ => 0) (fun _ _ _ _ => 0) 0 0 (0 * 2 + 1)
        = ∑ j ∈ Finset.range 2,
            dropoutR 0 ((fun _ _ _ _ => false) 0 0 0 j)
              (softmaxRow 2 (maskedScores 2 (maskAt (2, 2))
                (fun _ _ _ _ => 0) (fun _ _ _ _ => 0) 0 0 0) j)
            * (fun _ _ _ _ => (0 : ℝ)) 0 0 j 1) ∧
      (∀ i j', maskedScores 2 (maskAt (2, 2))
          (fun _ _ _ _ => 0) (fun _ _ _ _ => 0) 0 0 i j'
          = if maskAt (2, 2) i j'
            then (∑ e' ∈ Finset.range 2,
                (fun _ _ _ _ => (0 : ℝ)) 0 0 i e' * (fun _ _ _ _ => (0 : ℝ)) 0 0 j' e')
                / Real.sqrt 2
            else whereConst)) :=
  ⟨⟨by decide, by decide⟩,
    attention_core_semantics 2 1 2 2 0 (fun _ _ _ _ => false)
      (fun _ _ _ _ => 0) (fun _ _ _ _ => 0) (fun _ _ _ _ => 0) 0 0 0 1
      (by decide) (by decide)⟩

/-- C7: in SelfAttention.forward the per-head split of the local sharded
q/k/v width uses the global attention_head_size dim / num_heads, invariant
across shards: after the view and the (0, 2, 1, 3) permute, the tensor
handed to AttentionCore at (b, h, s, e) is the local projection output at
flat feature h · (dim / num_heads) + e, and under a valid sharding
(num_heads divisible by world_size, positive dim) the local head count
localWidth / headSize equals num_heads / world_size. -/
theorem head_split_global_head_size (w r dim H : ℕ)
    (hH : H ∣ dim) (hwH : w ∣ H) (hH0 : 0 < H) (hw0 : 0 < w) (hdim : 0 < dim) :
    (∀ (W : ℕ → ℕ → ℝ) (bias : ℕ → ℝ) (x : T3) (b h s e : ℕ),
      SelfAttention.coreIn w r dim H W bias x b h s e
        = SelfAttention.qkvLocal w r dim W bias x b s
            (h * SelfAttention.headSize dim H + e)) ∧
    SelfAttention.numLocalHeads w dim H = H / w := by
  refine ⟨fun W bias x b h s e => rfl, ?_⟩
  obtain ⟨d, rfl⟩ := hH
  obtain ⟨m, rfl⟩ := hwH
  have hd0 : 0 < d := by
    rcases Nat.eq_zero_or_pos d with h | h
    · subst h; simp at hdim
    · exact h
  have hm0 : 0 < m := by
    rcases Nat.eq_zero_or_pos m with h | h
    · subst h; simp at hdim
    · exact h
  have h1 : w * m * d / w = m * d := by
    rw [mul_assoc]; exact Nat.mul_div_cancel_left _ hw0
  have h2 : w * m * d / (w * m) = d := Nat.mul_div_cancel_left _ (Nat.mul_pos hw0 hm0)
  have h3 : w * m / w = m := Nat.mul_div_cancel_left _ hw0
  unfold SelfAttention.numLocalHeads SelfAttention.localWidth SelfAttention.headSize
  rw [h1, h2, h3, Nat.mul_div_cancel _ hd0]

/-- Witness for head_split_global_head_size: world_size = 2, rank 0,
dim = 4, num_heads = 2. -/
theorem head_split_global_head_size_witness :
    ((2 : ℕ) ∣ 4 ∧ (2 : ℕ) ∣ 2 ∧ (0 : ℕ) < 2 ∧ (0 : ℕ) < 4) ∧
    ((∀ (W : ℕ → ℕ → ℝ) (bias : ℕ → ℝ) (x : T3) (b h s e : ℕ),
        SelfAttention.coreIn 2 0 4 2 W bias x b h s e
          = SelfAttention.qkvLocal 2 0 4 W bias x b s
              (h * SelfAttention.headSize 4 2 + e)) ∧
      SelfAttention.numLocalHeads 2 4 2 = 2 / 2) :=
  ⟨⟨by decide, by decide, by decide, by decide⟩,
    head_split_global_head_size 2 0 4 2 (by decide) (by decide)
      (by decide) (by decide) (by decide)⟩

/-- C8: FeedForward.forward expands the hidden dimension to dim · ratio
(the expansion factor defaults to 4 in the source) through the
column-sharded projection without gathering, applies the elementwise
activation (GELU in the source) directly to the local sharded slice — which
coincides with the corresponding slice of the full dense intermediate after
activation, since an elementwise map commutes with slicing — and contracts
back to dim through the row-sharded projection consuming the still-sharded
intermediate and all-reducing the partial products with the bias added once. -/
theorem feed_forward_sharded_structure (act : ℝ → ℝ) (w dim mult : ℕ)
    (P : FeedForward.Params) (x : T3) :
    (∀ b s o, FeedForward.forward act w dim mult P x b s o
        = allReduceSum w (fun r =>
            rowParallelPart w r (FeedForward.ffnHidden dim mult) P.W2
              (FeedForward.interLocal act w r dim mult P x b s)) o + P.b2 o) ∧
    (∀ r b s u, FeedForward.interLocal act w r dim mult P x b s u
        = act (colParallelLocal 1 0 dim (FeedForward.ffnHidden dim mult)
            P.W1 P.b1 (x b s) (r * (FeedForward.ffnHidden dim mult / w) + u))) := by
  refine ⟨fun b s o => rfl, fun r b s u => ?_⟩
  unfold FeedForward.interLocal colParallelLocal
  rw [Nat.div_one, Nat.zero_mul, Nat.zero_add]

theorem dropoutR_zero (t : ℝ) : dropoutR 0 false t = t := by
  simp [dropoutR]

theorem colParallelLocal_slice (w r inD outD : ℕ) (W : ℕ → ℕ → ℝ)
    (bias : ℕ → ℝ) (x : ℕ → ℝ) (o : ℕ) :
    colParallelLocal w r inD outD W bias x o
      = colParallelLocal 1 0 inD outD W bias x (r * (outD / w) + o) := by
  unfold colParallelLocal
  rw [Nat.div_one, Nat.zero_mul, Nat.zero_add]

theorem headSize_eq (w m d : ℕ) (hw : 0 < w) (hm : 0 < m) :
    SelfAttention.headSize (w * m * d) (w * m) = d :=
  Nat.mul_div_cancel_left _ (Nat.mul_pos hw hm)

theorem localWidth_eq (w m d : ℕ) (hw : 0 < w) :
    SelfAttention.localWidth w (w * m * d) = m * d := by
  unfold SelfAttention.localWidth
  rw [mul_assoc]
  exact Nat.mul_div_cancel_left _ hw

theorem coreIn_slice (w r m d : ℕ) (hw : 0 < w) (hm : 0 < m)
    (W : ℕ → ℕ → ℝ) (bias : ℕ → ℝ) (x : T3) (b h s e : ℕ) :
    SelfAttention.coreIn w r (w * m * d) (w * m) W bias x b h s e
      = SelfAttention.coreIn 1 0 (w * m * d) (w * m) W bias x b (r * m + h) s e := by
  unfold SelfAttention.coreIn SelfAttention.permuteHeads SelfAttention.viewHeads
    SelfAttention.qkvLocal
  rw [colParallelLocal_slice w r (w * m * d) (w * m * d) W bias (x b s),
    colParallelLocal_slice 1 0 (w * m * d) (w * m * d) W bias (x b s)]
  congr 1
  have hww : w * m * d / w = m * d := by
    rw [mul_assoc]; exact Nat.mul_div_cancel_left _ hw
  rw [headSize_eq w m d hw hm, hww, Nat.zero_mul, Nat.zero_add]
  ring

theorem maskedScores_congr (d : ℕ) (mask : ℕ → ℕ → Bool) (q k q' k' : T4)
    (b h b' h' : ℕ)
    (hq : ∀ i e, q b h i e = q' b' h' i e)
    (hk : ∀ i e, k b h i e = k' b' h' i e) (i j : ℕ) :
    AttentionCore.maskedScores d mask q k b h i j
      = AttentionCore.maskedScores d mask q' k' b' h' i j := by
  unfold AttentionCore.maskedScores AttentionCore.scaled AttentionCore.scores
  have hs : ∑ e ∈ Finset.range d, q b h i e * k b h j e
      = ∑ e ∈ Finset.range d, q' b' h' i e * k' b' h' j e :=
    Finset.sum_congr rfl (fun e _ => by rw [hq i e, hk j e])
  rw [hs]

theorem coreOut_slice (w r m d seq : ℕ) (hw : 0 < w) (hm : 0 < m) (hd : 0 < d)
    (P : SelfAttention.Params) (hp : P.pAttn = 0)
    (nz nz' : B4) (hnz : ∀ b h i j, nz b h i j = false)
    (hnz' : ∀ b h i j, nz' b h i j = false)
    (mm : ℕ × ℕ) (x : T3) (b s u : ℕ) :
    SelfAttention.coreOut w r (w * m * d) (w * m) seq P nz mm x b s u
      = SelfAttention.coreOut 1 0 (w * m * d) (w * m) seq P nz' mm x b s
          (r * (m * d) + u) := by
  have hdiv : (r * (m * d) + u) / d = r * m + u / d := by
    rw [show r * (m * d) = r * m * d by ring, Nat.add_comm,
      Nat.add_mul_div_right _ _ hd, Nat.add_comm]
  have hmod : (r * (m * d) + u) % d = u % d := by
    rw [show r * (m * d) = d * (r * m) by ring, Nat.mul_add_mod]
  unfold SelfAttention.coreOut AttentionCore.forwardWith
  rw [headSize_eq w m d hw hm, hp, hdiv, hmod]
  unfold AttentionCore.context AttentionCore.dropped AttentionCore.weights
  refine Finset.sum_congr rfl (fun j hj => ?_)
  rw [hnz b (u / d) s j, hnz' b (r * m + u / d) s j, dropoutR_zero, dropoutR_zero]
  have hrow : AttentionCore.maskedScores d (AttentionCore.maskAt mm)
      (SelfAttention.coreIn w r (w * m * d) (w * m) P.Wq P.bq x)
      (SelfAttention.coreIn w r (w * m * d) (w * m) P.Wk P.bk x) b (u / d) s
    = AttentionCore.maskedScores d (AttentionCore.maskAt mm)
      (SelfAttention.coreIn 1 0 (w * m * d) (w * m) P.Wq P.bq x)
      (SelfAttention.coreIn 1 0 (w * m * d) (w * m) P.Wk P.bk x) b (r * m + u / d) s :=
    funext (fun j' => maskedScores_congr d (AttentionCore.maskAt mm) _ _ _ _
      b (u / d) b (r * m + u / d)
      (fun i e => coreIn_slice w r m d hw hm P.Wq P.bq x b (u / d) i e)
      (fun i e => coreIn_slice w r m d hw hm P.Wk P.bk x b (u / d) i e) s j')
  rw [hrow, coreIn_slice w r m d hw hm P.Wv P.bv x b (u / d) j (u % d)]


theorem dropout_eval (p : ℝ) (hp : p = 0) (nz : Bool) (hnz : nz = false) (t : ℝ) :
    dropoutR p nz t = t := by
  subst hp; subst hnz; exact dropoutR_zero t

theorem rowParallelOut_dense (w inD : ℕ) (hw : 0 < w) (hdvd : w ∣ inD)
    (W : ℕ → ℕ → ℝ) (bias : ℕ → ℝ) (xs : ℕ → ℕ → ℝ) (g : ℕ → ℝ)
    (hxs : ∀ r, r < w → ∀ i, xs r i = g (r * (inD / w) + i)) (o : ℕ) :
    rowParallelOut w inD W bias xs o
      = (∑ f ∈ Finset.range inD, g f * W o f) + bias o := by
  have hc : w * (inD / w) = inD := Nat.mul_div_cancel' hdvd
  have hsum : (∑ f ∈ Finset.range inD, g f * W o f)
      = ∑ r ∈ Finset.range w, ∑ i ∈ Finset.range (inD / w),
          g (r * (inD / w) + i) * W o (r * (inD / w) + i) := by
    rw [← hc, Nat.mul_div_cancel_left _ hw,
      sum_range_mul w (inD / w) (fun f => g f * W o f)]
  unfold rowParallelOut allReduceSum rowParallelPart
  rw [hsum]
  congr 1
  refine Finset.sum_congr rfl (fun r hr => Finset.sum_congr rfl (fun i _ => ?_))
  rw [hxs r (Finset.mem_range.mp hr) i]

theorem selfAttention_shard_equiv (w m d seq : ℕ) (hw : 0 < w) (hm : 0 < m)
    (hd : 0 < d) (P : SelfAttention.Params) (hpA : P.pAttn = 0) (hpO : P.pOut = 0)
    (nA nA' : ℕ → B4) (nO nO' : B3)
    (hnA : ∀ r b h i j, nA r b h i j = false)
    (hnA' : ∀ r b h i j, nA' r b h i j = false)
    (hnO : ∀ b s o, nO b s o = false)
    (hnO' : ∀ b s o, nO' b s o = false)
    (x : T3) (b s o : ℕ) :
    SelfAttention.forward w (w * m * d) (w * m) seq P nA nO x b s o
      = SelfAttention.forward 1 (w * m * d) (w * m) seq P nA' nO' x b s o := by
  have hww : w * m * d / w = m * d := by
    rw [mul_assoc]; exact Nat.mul_div_cancel_left _ hw
  unfold SelfAttention.forward SelfAttention.forwardWith
  rw [dropout_eval P.pOut hpO _ (hnO b s o), dropout_eval P.pOut hpO _ (hnO' b s o)]
  rw [rowParallelOut_dense w (w * m * d) hw ⟨m * d, by ring⟩ P.Wd P.bd _
      (fun f => SelfAttention.coreOut 1 0 (w * m * d) (w * m) seq P (nA' 0)
        (seq, seq) x b s f)
      (fun r hr i => by
        rw [hww]
        exact coreOut_slice w r m d seq hw hm hd P hpA (nA r) (nA' 0)
          (fun b h i j => hnA r b h i j) (fun b h i j => hnA' 0 b h i j)
          (seq, seq) x b s i) o,
    rowParallelOut_dense 1 (w * m * d) one_pos ⟨w * m * d, (one_mul _).symm⟩ P.Wd P.bd _
      (fun f => SelfAttention.coreOut 1 0 (w * m * d) (w * m) seq P (nA' 0)
        (seq, seq) x b s f)
      (fun r hr i => by
        have hr0 : r = 0 := Nat.lt_one_iff.mp hr
        subst hr0
        rw [Nat.zero_mul, Nat.zero_add]) o]

theorem interLocal_slice (act : ℝ → ℝ) (w r dim mult : ℕ) (P : FeedForward.Params)
    (x : T3) (b s u : ℕ) :
    FeedForward.interLocal act w r dim mult P x b s u
      = FeedForward.interLocal act 1 0 dim mult P x b s
          (r * (FeedForward.ffnHidden dim mult / w) + u) := by
  unfold FeedForward.interLocal
  rw [colParallelLocal_slice w r dim (FeedForward.ffnHidden dim mult)
    P.W1 P.b1 (x b s) u, colParallelLocal_slice 1 0 dim (FeedForward.ffnHidden dim mult)
    P.W1 P.b1 (x b s) _, Nat.zero_mul, Nat.zero_add]

theorem feedForward_shard_equiv (act : ℝ → ℝ) (w dim mult : ℕ) (hw : 0 < w)
    (hdvd : w ∣ dim) (P : FeedForward.Params) (y : T3) (b s o : ℕ) :
    FeedForward.forward act w dim mult P y b s o
      = FeedForward.forward act 1 dim mult P y b s o := by
  obtain ⟨c, rfl⟩ := hdvd
  have hF : FeedForward.ffnHidden (w * c) mult = w * (c * mult) := by
    unfold FeedForward.ffnHidden; ring
  unfold FeedForward.forward
  rw [rowParallelOut_dense w (FeedForward.ffnHidden (w * c) mult) hw ⟨c * mult, hF⟩
      P.W2 P.b2 _
      (fun f => FeedForward.interLocal act 1 0 (w * c) mult P y b s f)
      (fun r hr i => interLocal_slice act w r (w * c) mult P y b s i) o,
    rowParallelOut_dense 1 (FeedForward.ffnHidden (w * c) mult) one_pos
      ⟨FeedForward.ffnHidden (w * c) mult, (one_mul _).symm⟩ P.W2 P.b2 _
      (fun f => FeedForward.interLocal act 1 0 (w * c) mult P y b s f)
      (fun r hr i => by
        have hr0 : r = 0 := Nat.lt_one_iff.mp hr
        subst hr0
        rw [Nat.zero_mul, Nat.zero_add]) o]

/-- C1 counterexample: world_size = 2, dim = 2, num_heads = 1 satisfies the
validity conditions of the claim (dim divisible by num_heads and by world_size,
world_size in the claimed set), yet the sharded SelfAttention cannot run at
all: world_size does not divide num_heads, so the local width 1 cannot be
viewed as (numLocalHeads, headSize) = (0, 2) — the element counts differ —
and no sharded result exists to compare with the dense one. -/
theorem shard_invariance_counterexample :
    ((2 : ℕ) % 1 = 0 ∧ (2 : ℕ) % 2 = 0 ∧ (2 = 1 ∨ 2 = 2 ∨ 2 = 4)) ∧
    ¬ (2 ∣ 1) ∧ ¬ SelfAttention.viewOK 2 2 1 := by
  refine ⟨⟨rfl, rfl, Or.inr (Or.inl rfl)⟩, by decide, ?_⟩
  unfold SelfAttention.viewOK SelfAttention.localWidth
    SelfAttention.numLocalHeads SelfAttention.headSize
  decide

/-- C1 amended: for every world_size in {1, 2, 4}, every configuration with
dim divisible by num_heads and num_heads divisible by world_size (hence dim
divisible by world_size; when world_size does not divide num_heads, the
head-split view in the sharded SelfAttention is ill-formed and the sharded
computation does not run — see the counterexample), and every input
hidden-state tensor, the end-to-end composition of SelfAttention and
FeedForward computed with sharded weights (column-sharded projections
without gather feeding row-sharded projections with all-reduce) returns,
at inference (zero dropout), the same result as the equivalent dense
computation with world_size = 1; this holds for every elementwise
activation, in particular GELU. -/
theorem shard_invariance (act : ℝ → ℝ) (w dim H mult seq : ℕ)
    (hws : w = 1 ∨ w = 2 ∨ w = 4) (hH : H ∣ dim) (hwH : w ∣ H) (hdim : 0 < dim)
    (AP : SelfAttention.Params) (FP : FeedForward.Params)
    (hpA : AP.pAttn = 0) (hpO : AP.pOut = 0)
    (nA nA' : ℕ → B4) (nO nO' : B3)
    (hnA : ∀ r b h i j, nA r b h i j = false)
    (hnA' : ∀ r b h i j, nA' r b h i j = false)
    (hnO : ∀ b s o, nO b s o = false)
    (hnO' : ∀ b s o, nO' b s o = false)
    (x : T3) (b s o : ℕ) :
    FeedForward.forward act w dim mult FP
        (SelfAttention.forward w dim H seq AP nA nO x) b s o
      = FeedForward.forward act 1 dim mult FP
          (SelfAttention.forward 1 dim H seq AP nA' nO' x) b s o := by
  obtain ⟨d, rfl⟩ := hH
  obtain ⟨m, rfl⟩ := hwH
  have hw0 : 0 < w := by rcases hws with h | h | h <;> omega
  have hm0 : 0 < m := by
    rcases Nat.eq_zero_or_pos m with h | h
    · subst h; simp at hdim
    · exact h
  have hd0 : 0 < d := by
    rcases Nat.eq_zero_or_pos d with h | h
    · subst h; simp at hdim
    · exact h
  have hx : SelfAttention.forward w (w * m * d) (w * m) seq AP nA nO x
      = SelfAttention.forward 1 (w * m * d) (w * m) seq AP nA' nO' x :=
    funext fun b' => funext fun s' => funext fun o' =>
      selfAttention_shard_equiv w m d seq hw0 hm0 hd0 AP hpA hpO nA nA' nO nO'
        hnA hnA' hnO hnO' x b' s' o'
  rw [hx]
  exact feedForward_shard_equiv act w (w * m * d) mult hw0 ⟨m * d, by ring⟩ FP
    (SelfAttention.forward 1 (w * m * d) (w * m) seq AP nA' nO' x) b s o

/-- Witness for shard_invariance: identity activation, world_size = 2,
dim = 4, num_heads = 2, mlp_ratio = 4, sequence length 1, all-zero weights
and input, zero dropout, quiet noise. -/
theorem shard_invariance_witness :
    ((2 = 1 ∨ 2 = 2 ∨ 2 = 4) ∧ (2 : ℕ) ∣ 4 ∧ (2 : ℕ) ∣ 2 ∧ (0 : ℕ) < 4 ∧
      zeroAttnParams.pAttn = 0 ∧ zeroAttnParams.pOut = 0) ∧
    FeedForward.forward (fun t => t) 2 4 4 zeroFFParams
        (SelfAttention.forward 2 4 2 1 zeroAttnParams (fun _ _ _ _ _ => false)
          (fun _ _ _ => false) (fun _ _ _ => 0)) 0 0 0
      = FeedForward.forward (fun t => t) 1 4 4 zeroFFParams
          (SelfAttention.forward 1 4 2 1 zeroAttnParams (fun _ _ _ _ _ => false)
            (fun _ _ _ => false) (fun _ _ _ => 0)) 0 0 0 :=
  ⟨⟨Or.inr (Or.inl rfl), by decide, by decide, by decide, rfl, rfl⟩,
    shard_invariance (fun t => t) 2 4 2 4 1 (Or.inr (Or.inl rfl)) (by decide)
      (by decide) (by decide) zeroAttnParams zeroFFParams rfl rfl
      (fun _ _ _ _ _ => false) (fun _ _ _ _ _ => false)
      (fun _ _ _ => false) (fun _ _ _ => false)
      (fun _ _ _ _ _ => rfl) (fun _ _ _ _ _ => rfl)
      (fun _ _ _ => rfl) (fun _ _ _ => rfl)
      (fun _ _ _ => 0) 0 0 0⟩

theorem coreOut_noise_irrelevant (w r dim H seq : ℕ) (P : SelfAttention.Params)
    (hpA : P.pAttn = 0) (nz nz' : B4)
    (hnz : ∀ b h i j, nz b h i j = false)
    (hnz' : ∀ b h i j, nz' b h i j = false)
    (mm : ℕ × ℕ) (x : T3) (b s u : ℕ) :
    SelfAttention.coreOut w r dim H seq P nz mm x b s u
      = SelfAttention.coreOut w r dim H seq P nz' mm x b s u := by
  unfold SelfAttention.coreOut AttentionCore.forwardWith AttentionCore.context
    AttentionCore.dropped
  rw [hpA]
  refine Finset.sum_congr rfl (fun j _ => ?_)
  rw [hnz b _ s j, hnz' b _ s j]

theorem selfAttention_noise_irrelevant (w dim H seq : ℕ) (P : SelfAttention.Params)
    (hpA : P.pAttn = 0) (hpO : P.pOut = 0)
    (nA nA' : ℕ → B4) (nO nO' : B3)
    (hnA : ∀ r b h i j, nA r b h i j = false)
    (hnA' : ∀ r b h i j, nA' r b h i j = false)
    (hnO : ∀ b s o, nO b s o = false)
    (hnO' : ∀ b s o, nO' b s o = false)
    (mm : ℕ × ℕ) (y : T3) :
    SelfAttention.forwardWith w dim H seq P nA nO mm y
      = SelfAttention.forwardWith w dim H seq P nA' nO' mm y := by
  funext b s o
  unfold SelfAttention.forwardWith
  rw [dropout_eval P.pOut hpO _ (hnO b s o), dropout_eval P.pOut hpO _ (hnO' b s o)]
  unfold rowParallelOut allReduceSum rowParallelPart
  congr 1
  refine Finset.sum_congr rfl (fun r _ => Finset.sum_congr rfl (fun i _ => ?_))
  exact congrArg (fun t => t * P.Wd o (r * (dim / w) + i))
    (coreOut_noise_irrelevant w r dim H seq P hpA (nA r) (nA' r)
      (fun b h i j => hnA r b h i j) (fun b h i j => hnA' r b h i j) mm y b s i)

theorem forwardMask_noise_irrelevant (act : ℝ → ℝ) (w dim H mult seq : ℕ)
    (P : GPTLayer.Params) (N N' : GPTLayer.Noise)
    (hpA : P.attn.pAttn = 0) (hpO : P.attn.pOut = 0)
    (hN : N.quiet) (hN' : N'.quiet) (mm : ℕ × ℕ) (x : T3) :
    GPTLayer.forwardMask act w dim H mult seq P N mm x
      = GPTLayer.forwardMask act w dim H mult seq P N' mm x := by
  have hSA := selfAttention_noise_irrelevant w dim H seq P.attn hpA hpO
    N.nA N'.nA N.nO N'.nO hN.1 hN'.1 hN.2 hN'.2 mm (layerNormT dim P.g1 P.t1 x)
  unfold GPTLayer.forwardMask
  rw [hSA]

theorem gptLayer_second_call (act : ℝ → ℝ) (w dim H mult seq : ℕ)
    (P : GPTLayer.Params) (N N' : GPTLayer.Noise)
    (hpA : P.attn.pAttn = 0) (hpO : P.attn.pOut = 0)
    (hN : N.quiet) (hN' : N'.quiet) (x : T3) :
    GPTLayer.forwardSt act w dim H mult seq P N'
        (GPTLayer.forwardSt act w dim H mult seq P N none x).1 x
      = GPTLayer.forwardSt act w dim H mult seq P N none x :=
  congrArg (Prod.mk (some (seq, seq)))
    (forwardMask_noise_irrelevant act w dim H mult seq P N' N hpA hpO hN' hN
      (seq, seq) x)

/-- C10: for a GPT whose layers are all constructed with
attention_dropout = 0 and dropout = 0, forward is deterministic: starting
from the fresh model (every mask cache empty), a first evaluation on x and a
second evaluation on the same x — each with its own (almost surely all-false)
dropout draws — return the same caches and the same output; in particular the
call that first builds the cached causal mask of each layer and the subsequent
call at the same sequence length produce equal outputs. -/
theorem forward_deterministic_dropout_zero (act : ℝ → ℝ) (w dim H mult seq : ℕ)
    (Ps : List GPTLayer.Params) (N1 N2 : List GPTLayer.Noise) (x : T3)
    (hp : ∀ P ∈ Ps, P.attn.pAttn = 0 ∧ P.attn.pOut = 0)
    (hq1 : ∀ N ∈ N1, N.quiet) (hq2 : ∀ N ∈ N2, N.quiet)
    (hl1 : N1.length = Ps.length) (hl2 : N2.length = Ps.length) :
    GPT.forwardSt act w dim H mult seq (Ps.zip N2)
        (GPT.forwardSt act w dim H mult seq (Ps.zip N1)
          (List.replicate Ps.length none) x).1 x
      = GPT.forwardSt act w dim H mult seq (Ps.zip N1)
          (List.replicate Ps.length none) x := by
  induction Ps generalizing N1 N2 x with
  | nil => simp [GPT.forwardSt]
  | cons P Ps ih =>
    cases N1 with
    | nil => simp at hl1
    | cons N1h N1t =>
      cases N2 with
      | nil => simp at hl2
      | cons N2h N2t =>
        have hP := hp P (List.mem_cons_self _ _)
        have hq1h := hq1 N1h (List.mem_cons_self _ _)
        have hq2h := hq2 N2h (List.mem_cons_self _ _)
        have hl1' : N1t.length = Ps.length := by simpa using hl1
        have hl2' : N2t.length = Ps.length := by simpa using hl2
        have hlayer := gptLayer_second_call act w dim H mult seq P N1h N2h
          hP.1 hP.2 hq1h hq2h x
        have hrest := ih N1t N2t
          (GPTLayer.forwardSt act w dim H mult seq P N1h none x).2
          (fun P' h => hp P' (List.mem_cons_of_mem _ h))
          (fun N h => hq1 N (List.mem_cons_of_mem _ h))
          (fun N h => hq2 N (List.mem_cons_of_mem _ h)) hl1' hl2'
        simp only [List.zip] at hrest
        simp only [List.zip_cons_cons, List.length_cons, List.replicate_succ,
          GPT.forwardSt, List.headI_cons, List.tail_cons]
        rw [hlayer, hrest]

/-- Witness for forward_deterministic_dropout_zero: a one-layer GPT with
all-zero weights, dim = num_heads = 1, world_size = 1, sequence length 1,
zero input, quiet noise on both calls. -/
theorem forward_deterministic_dropout_zero_witness :
    ((∀ P ∈ [zeroLayerParams], P.attn.pAttn = 0 ∧ P.attn.pOut = 0) ∧
      (∀ N ∈ [quietLayerNoise], N.quiet) ∧
      ([quietLayerNoise].length = [zeroLayerParams].length)) ∧
    GPT.forwardSt (fun t => t) 1 1 1 4 1 ([zeroLayerParams].zip [quietLayerNoise])
        (GPT.forwardSt (fun t => t) 1 1 1 4 1
          ([zeroLayerParams].zip [quietLayerNoise])
          (List.replicate [zeroLayerParams].length none) (fun _ _ _ => 0)).1
        (fun _ _ _ => 0)
      = GPT.forwardSt (fun t => t) 1 1 1 4 1
          ([zeroLayerParams].zip [quietLayerNoise])
          (List.replicate [zeroLayerParams].length none) (fun _ _ _ => 0) :=
  ⟨⟨fun P hP => by
      rw [List.mem_singleton] at hP
      subst hP
      exact ⟨rfl, rfl⟩,
    fun N hN => by
      rw [List.mem_singleton] at hN
      subst hN
      exact quietLayerNoise_quiet,
    rfl⟩,
    forward_deterministic_dropout_zero (fun t => t) 1 1 1 4 1
      [zeroLayerParams] [quietLayerNoise] [quietLayerNoise] (fun _ _ _ => 0)
      (fun P hP => by
        rw [List.mem_singleton] at hP
        subst hP
        exact ⟨rfl, rfl⟩)
      (fun N hN => by
        rw [List.mem_singleton] at hN
        subst hN
        exact quietLayerNoise_quiet)
      (fun N hN => by
        rw [List.mem_singleton] at hN
        subst hN
        exact quietLayerNoise_quiet)
      rfl rfl⟩
